import Mathlib

/-!
Verification of the luscus molecular viewer core (api.js, fileWriter.js, main.js).

The JavaScript source is shallowly embedded:

* JS numbers are idealised as exact rationals (`Rat`); binary floating-point
  rounding of intermediate arithmetic is not modelled.
* Assigning a number to an HTML canvas dimension (`canvas.width = x`) converts
  to an IDL `unsigned long`: truncation toward zero, modulo 2 ^ 32
  (`jsUint32`); `renderer.setSize` is modelled with pixel ratio 1, so it
  leaves the already-assigned canvas dimensions unchanged.
* `THREE.Color` values are represented by their 24-bit packed value (the value
  `getHex` returns), which is the only observation the de-instancing code
  makes of a colour.
* Reference identity of materials is made explicit by a material heap
  (`List Material`); a material reference is an index into that heap, and
  cloning a material appends a fresh entry.
* The cooperative `requestAnimationFrame` loop of `exportVideo` is modelled as
  a recursive step function; the stop flag, which the Stop button may set
  between animation ticks, is modelled as a function of the tick index (the
  j-th invocation of `step` runs with `currentFrame = j`).
-/

/-! ## Canvas scaling (Api.scaleCanvas) -/

/-- Conversion applied by the browser when a JS number is assigned to
`canvas.width` / `canvas.height` (IDL unsigned long): truncate toward zero and
reduce modulo 2 ^ 32.  All values assigned in this development are
nonnegative, so truncation toward zero is the floor. -/
def jsUint32 (x : Rat) : Nat := (⌊x⌋).toNat % 4294967296

/-- Embedding of `Api.scaleCanvas`: reads `canvas.width`/`canvas.height`,
multiplies by the scaling factor and assigns them back (the assignment
truncates to an unsigned long).  `renderer.setSize(canvas.width,
canvas.height)` re-assigns the same integers (pixel ratio 1). -/
def scaleCanvas (scalingFactor : Rat) (width height : Nat) : Nat × Nat :=
  (jsUint32 (width * scalingFactor), jsUint32 (height * scalingFactor))

theorem jsUint32_natCast (m : Nat) : jsUint32 (m : Rat) = m % 4294967296 := by
  simp [jsUint32]

/-- Scaling by a positive integer and then by its reciprocal restores the
canvas dimensions, provided the scaled dimensions do not overflow the
unsigned-long range. -/
theorem scaleCanvas_intFactor_roundtrip (n : Nat) (hn : 0 < n) (w h : Nat)
    (hw : w * n < 4294967296) (hh : h * n < 4294967296) :
    scaleCanvas (1 / (n : Rat)) (scaleCanvas (n : Rat) w h).1
      (scaleCanvas (n : Rat) w h).2 = (w, h) := by
  have hn0 : (n : Rat) ≠ 0 := Nat.cast_ne_zero.mpr hn.ne'
  have key : ∀ m : Nat, m * n < 4294967296 →
      jsUint32 ((jsUint32 ((m : Rat) * (n : Rat))) * (1 / (n : Rat))) = m := by
    intro m hm
    have h1 : ((m : Rat) * (n : Rat)) = ((m * n : Nat) : Rat) := by push_cast; ring
    rw [h1, jsUint32_natCast, Nat.mod_eq_of_lt hm]
    have h2 : ((m * n : Nat) : Rat) * (1 / (n : Rat)) = (m : Rat) := by
      push_cast
      field_simp
    rw [h2, jsUint32_natCast]
    have hmn : m ≤ m * n := Nat.le_mul_of_pos_right m hn
    exact Nat.mod_eq_of_lt (lt_of_le_of_lt hmn hm)
  simp only [scaleCanvas]
  exact Prod.ext (key w hw) (key h hh)

/-! ## Video export state machine (Api.exportVideo) -/

/-- State touched by `Api.exportVideo` that the claims observe:
the scene background (`none` is JS `null`, `some c` a colour with packed value
`c`), the canvas dimensions, the `currentFrame` counter and the number of
frames submitted to the `CCapture` encoder so far. -/
structure VideoState where
  background : Option Nat
  width : Nat
  height : Nat
  currentFrame : Nat
  captured : Nat
deriving DecidableEq, Repr

/-- Entry code of `Api.exportVideo` up to and including the first frame
capture: `capturer.start()`, `scaleCanvas(scaleFactor)`,
`scene.background = new THREE.Color(0xFFFFFF)`, `currentFrame = 0`, position
the camera at progress 0, render, and `capturer.capture(...)` (one frame is
submitted before the tick loop starts). -/
def videoStart (scaleFactor : Rat) (s : VideoState) : VideoState :=
  let d := scaleCanvas scaleFactor s.width s.height
  { background := some 0xFFFFFF
    width := d.1
    height := d.2
    currentFrame := 0
    captured := 1 }

/-- Finalisation branch of `step`: `capturer.stop()`, `capturer.save()`,
`scene.background = null`, `scaleCanvas(1/scaleFactor)`, reset the button and
hide the progress bar. -/
def videoFinalize (scaleFactor : Rat) (s : VideoState) : VideoState :=
  let d := scaleCanvas (1 / scaleFactor) s.width s.height
  { s with background := none, width := d.1, height := d.2 }

/-- The `step` closure of `Api.exportVideo`.  On each invocation it finalises
if `currentFrame >= lastFrame || stop`, else increments `currentFrame`,
evaluates the camera path at `currentFrame / lastFrame`, renders, submits one
frame to the encoder and schedules the next invocation.  `stop j` is the
value the stop flag has when the invocation with `currentFrame = j` runs (the
flag is only ever set, never cleared, by the Stop button between animation
ticks). -/
def videoSteps (lastFrame : Nat) (stop : Nat → Bool) (scaleFactor : Rat)
    (s : VideoState) : VideoState :=
  if h : lastFrame ≤ s.currentFrame ∨ stop s.currentFrame = true then
    videoFinalize scaleFactor s
  else
    videoSteps lastFrame stop scaleFactor
      { s with currentFrame := s.currentFrame + 1, captured := s.captured + 1 }
termination_by lastFrame - s.currentFrame
decreasing_by
  push_neg at h
  omega

/-- Whole run of `Api.exportVideo`: entry code (including the frame-0
capture), then the tick loop with the fixed frame budget `lastFrame = 200`. -/
def exportVideo (scaleFactor : Rat) (stop : Nat → Bool) (s : VideoState) :
    VideoState :=
  videoSteps 200 stop scaleFactor (videoStart scaleFactor s)

/-! ### Loop lemmas -/

/-- Every run of the tick loop ends in the finalisation branch, which only
ever sees the width, height and background the loop entered with. -/
theorem videoSteps_eq_finalize (lastFrame : Nat) (stop : Nat → Bool)
    (scaleFactor : Rat) (s : VideoState) :
    ∃ m c, videoSteps lastFrame stop scaleFactor s =
      videoFinalize scaleFactor
        { s with currentFrame := m, captured := c } := by
  rw [videoSteps]
  by_cases h : lastFrame ≤ s.currentFrame ∨ stop s.currentFrame = true
  · refine ⟨s.currentFrame, s.captured, ?_⟩
    rw [dif_pos h]
  · rw [dif_neg h]
    obtain ⟨m, c, hmc⟩ := videoSteps_eq_finalize lastFrame stop scaleFactor
      { s with currentFrame := s.currentFrame + 1, captured := s.captured + 1 }
    exact ⟨m, c, hmc⟩
termination_by lastFrame - s.currentFrame
decreasing_by
  push_neg at h
  omega

/-- If the stop flag is never set, the loop captures one frame per tick until
the frame budget is exhausted. -/
theorem videoSteps_captured_no_stop (lastFrame : Nat) (stop : Nat → Bool)
    (scaleFactor : Rat) (s : VideoState)
    (hstop : ∀ j, stop j = false) :
    (videoSteps lastFrame stop scaleFactor s).captured =
      s.captured + (lastFrame - s.currentFrame) := by
  rw [videoSteps]
  by_cases h : lastFrame ≤ s.currentFrame ∨ stop s.currentFrame = true
  · have h1 : lastFrame ≤ s.currentFrame := by
      rcases h with h | h
      · exact h
      · rw [hstop s.currentFrame] at h
        exact absurd h (by simp)
    rw [dif_pos h]
    simp [videoFinalize, Nat.sub_eq_zero_of_le h1]
  · rw [dif_neg h]
    rw [videoSteps_captured_no_stop lastFrame stop scaleFactor _ hstop]
    rw [not_or] at h
    have hlt : s.currentFrame < lastFrame := Nat.lt_of_not_le h.1
    show s.captured + 1 + (lastFrame - (s.currentFrame + 1)) =
      s.captured + (lastFrame - s.currentFrame)
    omega
termination_by lastFrame - s.currentFrame
decreasing_by
  push_neg at h
  omega

/-- If the stop flag is first observed at the invocation running with
`currentFrame = k ≤ lastFrame`, the loop captures one frame per tick strictly
before that invocation and then finalises. -/
theorem videoSteps_captured_stop_at (lastFrame : Nat) (stop : Nat → Bool)
    (scaleFactor : Rat) (k : Nat) (s : VideoState)
    (hk : k ≤ lastFrame)
    (hlow : ∀ j, s.currentFrame ≤ j → j < k → stop j = false)
    (hcf : s.currentFrame ≤ k)
    (hstop : stop k = true) :
    (videoSteps lastFrame stop scaleFactor s).captured =
      s.captured + (k - s.currentFrame) := by
  rw [videoSteps]
  by_cases h : s.currentFrame = k
  · have hcond : lastFrame ≤ s.currentFrame ∨ stop s.currentFrame = true :=
      Or.inr (h ▸ hstop)
    rw [dif_pos hcond]
    simp [videoFinalize, h]
  · have hlt : s.currentFrame < k := Nat.lt_of_le_of_ne hcf h
    have hcond : ¬(lastFrame ≤ s.currentFrame ∨ stop s.currentFrame = true) := by
      rw [not_or]
      refine ⟨by omega, ?_⟩
      rw [hlow s.currentFrame le_rfl hlt]
      simp
    rw [dif_neg hcond]
    rw [videoSteps_captured_stop_at lastFrame stop scaleFactor k _ hk
      (fun j hj1 hj2 => hlow j
        (by change s.currentFrame + 1 ≤ j at hj1; omega) hj2)
      (by change s.currentFrame + 1 ≤ k; omega) hstop]
    show s.captured + 1 + (k - (s.currentFrame + 1)) =
      s.captured + (k - s.currentFrame)
    omega
termination_by lastFrame - s.currentFrame
decreasing_by
  push_neg at hcond
  omega

/-! ### Claims C1, C2, C9 -/

/-- C1: for the video export tick loop with the default frame budget
`lastFrame = 200`: if the stop flag is never set, the encoder's capture
operation is invoked exactly 201 times (one capture at frame 0 before the
loop, then one per tick for frames 1..200) before the encoder is stopped and
saved; and if the stop flag is set so that it is first observed at tick `k`
(`k ≤ 200`), exactly `k + 1` frames have been captured when finalisation
runs. -/
theorem exportVideo_capture_count (scaleFactor : Rat) (s : VideoState) :
    (∀ stop : Nat → Bool, (∀ j, stop j = false) →
        (exportVideo scaleFactor stop s).captured = 201)
    ∧ (∀ (stop : Nat → Bool) (k : Nat), k ≤ 200 →
        (∀ j, j < k → stop j = false) → stop k = true →
        (exportVideo scaleFactor stop s).captured = k + 1) := by
  constructor
  · intro stop hstop
    unfold exportVideo
    rw [videoSteps_captured_no_stop 200 stop scaleFactor _ hstop]
    simp [videoStart]
  · intro stop k hk hlow hstop
    unfold exportVideo
    rw [videoSteps_captured_stop_at 200 stop scaleFactor k _ hk
      (fun j _ hj2 => hlow j hj2) (Nat.zero_le k) hstop]
    simp only [videoStart]
    omega

/-- C1 witness: a run with the stop flag never set captures 201 frames, and a
run whose stop flag is first observed at tick 3 captures 4 frames. -/
theorem exportVideo_capture_count_witness :
    (exportVideo 1 (fun _ => false) ⟨none, 100, 50, 0, 0⟩).captured = 201
    ∧ (exportVideo 1 (fun j => decide (3 ≤ j)) ⟨none, 100, 50, 0, 0⟩).captured
        = 3 + 1 :=
  ⟨(exportVideo_capture_count 1 ⟨none, 100, 50, 0, 0⟩).1 (fun _ => false)
      (fun _ => rfl),
   (exportVideo_capture_count 1 ⟨none, 100, 50, 0, 0⟩).2 (fun j => decide (3 ≤ j))
      3 (by decide)
      (fun j hj => by simp only [decide_eq_false_iff_not]; omega)
      (by decide)⟩

/-- C2 counterexample: the claim "for every scale factor f > 0 and every
starting render-target size, `scaleCanvas f` then `scaleCanvas (1/f)`
restores the original integer dimensions" fails at f = 3/2 on a 3×3 canvas:
the first call truncates 4.5 to 4 and the second truncates 8/3 to 2. -/
theorem scaleCanvas_roundtrip_counterexample :
    (fun d => scaleCanvas (1 / (3/2 : Rat)) d.1 d.2)
      (scaleCanvas (3/2 : Rat) 3 3) ≠ (3, 3) := by
  have h1 : ⌊((3 : Nat) : Rat) * (3/2 : Rat)⌋ = 4 :=
    Int.floor_eq_iff.mpr (by norm_num)
  have hfirst : scaleCanvas (3/2 : Rat) 3 3 = (4, 4) := by
    simp only [scaleCanvas, jsUint32, h1]
    decide
  have h2 : ⌊((4 : Nat) : Rat) * (1 / (3/2 : Rat))⌋ = 2 :=
    Int.floor_eq_iff.mpr (by norm_num)
  have hsecond : scaleCanvas (1 / (3/2 : Rat)) 4 4 = (2, 2) := by
    simp only [scaleCanvas, jsUint32, h2]
    decide
  simp only [hfirst, hsecond]
  decide

/-- C2 amended: the round trip `scaleCanvas f; scaleCanvas (1/f)` restores
the render target's exact integer dimensions when the scale factor is a
positive integer and the scaled dimensions stay below 2^32 (for fractional
factors the truncation to integer canvas dimensions drifts, see the
counterexample). -/
theorem scaleCanvas_roundtrip_intFactor (n : Nat) (hn : 0 < n) (w h : Nat)
    (hw : w * n < 4294967296) (hh : h * n < 4294967296) :
    (fun d => scaleCanvas (1 / (n : Rat)) d.1 d.2)
      (scaleCanvas (n : Rat) w h) = (w, h) :=
  scaleCanvas_intFactor_roundtrip n hn w h hw hh

/-- C2 witness: doubling a 100×50 canvas and then halving it restores the
original dimensions. -/
theorem scaleCanvas_roundtrip_intFactor_witness :
    (fun d => scaleCanvas (1 / ((2 : Nat) : Rat)) d.1 d.2)
      (scaleCanvas ((2 : Nat) : Rat) 100 50) = (100, 50) :=
  scaleCanvas_roundtrip_intFactor 2 (by decide) 100 50 (by decide) (by decide)

/-- C9 counterexample: the claim "the scene background that was in effect
before the export started is restored, for every initial background value"
fails when the initial background is the colour 0x123456: finalisation sets
`scene.background = null` unconditionally, so the original colour is lost. -/
theorem exportVideo_background_counterexample :
    (exportVideo 1 (fun _ => true) ⟨some 0x123456, 100, 50, 0, 0⟩).background
      ≠ some 0x123456 := by
  rw [exportVideo, videoSteps]
  simp [videoStart, videoFinalize]

/-- C9 amended: on every termination path (any behaviour of the stop flag,
covering both the frame-budget exit and the stop-flag exit, which share the
single finalisation branch), video export sets the scene background to null
and rescales the canvas by `1/scaleFactor`; consequently the pre-export
background is restored exactly when it was null (as in this application,
where the scene starts with a null background), and the original canvas
dimensions are restored for a positive integer scale factor whose scaled
dimensions do not overflow the unsigned-long range. -/
theorem exportVideo_restores_state (n : Nat) (stop : Nat → Bool)
    (s : VideoState) (hn : 0 < n) (hbg : s.background = none)
    (hw : s.width * n < 4294967296) (hh : s.height * n < 4294967296) :
    (exportVideo (n : Rat) stop s).background = s.background
    ∧ (exportVideo (n : Rat) stop s).width = s.width
    ∧ (exportVideo (n : Rat) stop s).height = s.height := by
  obtain ⟨m, c, hmc⟩ :=
    videoSteps_eq_finalize 200 stop (n : Rat) (videoStart (n : Rat) s)
  have hrt := scaleCanvas_intFactor_roundtrip n hn s.width s.height hw hh
  unfold exportVideo
  rw [hmc]
  refine ⟨by simp [videoFinalize, hbg], ?_, ?_⟩
  · simp only [videoFinalize, videoStart]
    rw [hrt]
  · simp only [videoFinalize, videoStart]
    rw [hrt]

/-- C9 witness: with a null initial background and scale factor 2, a stopped
run hands back the original background and canvas dimensions. -/
theorem exportVideo_restores_state_witness :
    (exportVideo ((2 : Nat) : Rat) (fun _ => true) ⟨none, 100, 50, 0, 0⟩).background = none
    ∧ (exportVideo ((2 : Nat) : Rat) (fun _ => true) ⟨none, 100, 50, 0, 0⟩).width = 100
    ∧ (exportVideo ((2 : Nat) : Rat) (fun _ => true) ⟨none, 100, 50, 0, 0⟩).height = 50 :=
  exportVideo_restores_state 2 (fun _ => true) ⟨none, 100, 50, 0, 0⟩
    (by decide) rfl (by decide) (by decide)

/-! ## De-instancing (fileWriter.js deinstantiate) -/

/-- Rational 3-vector (`THREE.Vector3`). -/
structure Vec3 where
  x : Rat
  y : Rat
  z : Rat
deriving DecidableEq, Repr

/-- Rational quaternion (`THREE.Quaternion`). -/
structure Quat where
  x : Rat
  y : Rat
  z : Rat
  w : Rat
deriving DecidableEq, Repr

/-- The scale of the module-level `emptyElem` sentinel:
`new THREE.Vector3()` is the zero vector. -/
def emptyScale : Vec3 := ⟨0, 0, 0⟩

/-- Default quaternion of a freshly constructed `THREE.Group`. -/
def identityQuat : Quat := ⟨0, 0, 0, 1⟩

/-- Default scale of a freshly constructed `THREE.Group`. -/
def unitScale : Vec3 := ⟨1, 1, 1⟩

/-- A material.  `template` stands for all the non-colour properties that
`Material.clone` copies from the cloned material; `color` is the 24-bit
packed colour.  Materials live in an explicit heap (`List Material`) and are
referenced by heap index, making reference identity explicit. -/
structure Material where
  template : Nat
  color : Nat
deriving DecidableEq, Repr

/-- Placeholder returned when a material reference is out of range (cannot
happen for well-formed scenes; only used to totalise `List.getD`). -/
def defaultMaterial : Material := ⟨0, 0⟩

/-- One record of an instanced mesh: the position/quaternion/scale that
`compose` packed into the i-th instance matrix (and that `decompose`
recovers), and the 24-bit packed value of the i-th instance colour (the
value `getColorAt` followed by `getHex` observes). -/
structure Inst where
  position : Vec3
  quaternion : Quat
  scale : Vec3
  color : Nat
deriving DecidableEq, Repr

mutual
/-- A scene node: either a plain `Object3D`/`Mesh` (optional geometry and
material references, a transform, children) or an `InstancedMesh` with one
base geometry, one base material and a list of instance records. -/
inductive Obj where
  | node (geometry : Option Nat) (material : Option Nat) (position : Vec3)
      (quaternion : Quat) (scale : Vec3) (children : ObjList)
  | instanced (geometry : Nat) (material : Nat) (insts : List Inst)
inductive ObjList where
  | nil
  | cons (head : Obj) (tail : ObjList)
end

/-- `materialMap.has(hexColor)` / `materialMap.get(hexColor)` of the JS
`Map`, as lookup in an association list from packed colour to heap index. -/
def lookupColor : List (Nat × Nat) → Nat → Option Nat
  | [], _ => none
  | p :: ps, c => if p.1 = c then some p.2 else lookupColor ps c

/-- `object.material.clone()` followed by `m.color.copy(color)`: the clone
takes every non-colour property (`template`) from the base material and the
packed instance colour. -/
def cloneMaterial (heap : List Material) (material : Nat) (hexColor : Nat) :
    Material :=
  { template := (heap.getD material defaultMaterial).template
    color := hexColor }

/-- The instance loop of `deinstantiate` for an `InstancedMesh`: for each
instance read its colour, pack it (`getHex`); if the packed value is not in
the cache, clone the base material, overwrite the clone's colour and cache
it; build a discrete mesh from the shared geometry and the cached material;
decompose the instance matrix onto the mesh transform; skip the mesh if its
scale equals the `emptyElem` sentinel scale, otherwise append it to the
group.  Returns the group children, the updated cache and the updated
material heap. -/
def deinstInsts (geometry : Nat) (material : Nat) (insts : List Inst)
    (materialMap : List (Nat × Nat)) (heap : List Material) :
    ObjList × List (Nat × Nat) × List Material :=
  match insts with
  | [] => (ObjList.nil, materialMap, heap)
  | inst :: rest =>
    let hexColor := inst.color
    let mm1 := if (lookupColor materialMap hexColor).isSome then materialMap
      else (hexColor, heap.length) :: materialMap
    let heap1 := if (lookupColor materialMap hexColor).isSome then heap
      else heap ++ [cloneMaterial heap material hexColor]
    let matId := (lookupColor mm1 hexColor).getD 0
    let mesh := Obj.node (some geometry) (some matId) inst.position
      inst.quaternion inst.scale ObjList.nil
    let r := deinstInsts geometry material rest mm1 heap1
    if inst.scale = emptyScale then r
    else (ObjList.cons mesh r.1, r.2.1, r.2.2)

mutual
/-- fileWriter.js `deinstantiate(object, materialMap)` with the cache already
allocated.  A non-instanced node is shallow-cloned (geometry, material and
transform shared) and its children are de-instanced left to right, threading
the colour→material cache; an instanced node becomes a fresh `THREE.Group`
holding one discrete mesh per non-sentinel instance. -/
def deinstantiate : Obj → List (Nat × Nat) → List Material →
    Obj × List (Nat × Nat) × List Material
  | Obj.node geometry material position quaternion scale children, materialMap,
      heap =>
    let r := deinstantiateList children materialMap heap
    (Obj.node geometry material position quaternion scale r.1, r.2.1, r.2.2)
  | Obj.instanced geometry material insts, materialMap, heap =>
    let r := deinstInsts geometry material insts materialMap heap
    (Obj.node none none ⟨0, 0, 0⟩ identityQuat unitScale r.1, r.2.1, r.2.2)
/-- `object.children.map(c => deinstantiate(c, materialMap))`: the shared JS
`Map` makes the traversal left-to-right with the cache threaded through. -/
def deinstantiateList : ObjList → List (Nat × Nat) → List Material →
    ObjList × List (Nat × Nat) × List Material
  | ObjList.nil, materialMap, heap => (ObjList.nil, materialMap, heap)
  | ObjList.cons c cs, materialMap, heap =>
    let r := deinstantiate c materialMap heap
    let rs := deinstantiateList cs r.2.1 r.2.2
    (ObjList.cons r.1 rs.1, rs.2.1, rs.2.2)
end

/-- Top-level call `deinstantiate(object)` with the `materialMap` argument
omitted: a fresh empty cache is allocated. -/
def deinstantiateTop (object : Obj) (heap : List Material) :
    Obj × List (Nat × Nat) × List Material :=
  deinstantiate object [] heap

/-- Children of a node (an instanced mesh stores none). -/
def Obj.childrenOf : Obj → ObjList
  | Obj.node _ _ _ _ _ cs => cs
  | Obj.instanced _ _ _ => ObjList.nil

/-- Number of nodes in a child list. -/
def ObjList.numChildren : ObjList → Nat
  | ObjList.nil => 0
  | ObjList.cons _ cs => 1 + cs.numChildren

/-- Material references of the top-level nodes of a child list, in order. -/
def ObjList.topMaterials : ObjList → List Nat
  | ObjList.nil => []
  | ObjList.cons (Obj.node _ m _ _ _ _) cs => m.toList ++ cs.topMaterials
  | ObjList.cons (Obj.instanced _ m _) cs => m :: cs.topMaterials

/-- An instance survives de-instancing iff its decomposed scale is not the
`emptyElem` sentinel. -/
def Inst.kept (i : Inst) : Bool := !decide (i.scale = emptyScale)

/-! ### Cache and heap lemmas for the instance loop -/

theorem lookupColor_mem {mm : List (Nat × Nat)} {c i : Nat}
    (h : lookupColor mm c = some i) : (c, i) ∈ mm := by
  induction mm with
  | nil => simp [lookupColor] at h
  | cons p ps ih =>
    rw [lookupColor] at h
    by_cases hp : p.1 = c
    · rw [if_pos hp] at h
      have hp2 : p = (c, i) := by
        obtain ⟨p1, p2⟩ := p
        simp only at hp
        simp only [Option.some.injEq] at h
        rw [hp, h]
      rw [hp2]
      exact List.mem_cons_self _ _
    · rw [if_neg hp] at h
      exact List.mem_cons_of_mem p (ih h)

theorem lookupColor_eq_none {mm : List (Nat × Nat)} {c : Nat}
    (h : lookupColor mm c = none) : ∀ i, (c, i) ∉ mm := by
  intro i hmem
  induction mm with
  | nil => simp at hmem
  | cons p ps ih =>
    rw [lookupColor] at h
    by_cases hp : p.1 = c
    · rw [if_pos hp] at h
      exact Option.noConfusion h
    · rw [if_neg hp] at h
      rcases List.mem_cons.mp hmem with heq | hmem2
      · exact hp (by rw [← heq])
      · exact ih h hmem2

theorem lookupColor_insert_self (mm : List (Nat × Nat)) (c i : Nat) :
    lookupColor ((c, i) :: mm) c = some i := by
  simp [lookupColor]

theorem lookupColor_insert_of_lookup {mm : List (Nat × Nat)} {c i : Nat}
    (k v : Nat) (hk : lookupColor mm k = none)
    (h : lookupColor mm c = some i) :
    lookupColor ((k, v) :: mm) c = some i := by
  have hne : k ≠ c := by
    intro he
    rw [he] at hk
    rw [hk] at h
    exact Option.noConfusion h
  rw [lookupColor, if_neg hne]
  exact h

/-- Both branches of the sentinel test leave the cache and heap components
unchanged. -/
theorem sentinel_ite_snd (c : Prop) [Decidable c] (mesh : Obj)
    (r : ObjList × List (Nat × Nat) × List Material) :
    (if c then r else (ObjList.cons mesh r.1, r.2.1, r.2.2)).2 = r.2 := by
  split <;> rfl

/-- Unfolding of the instance loop when the packed colour is already
cached. -/
theorem deinstInsts_cons_hit (geometry material : Nat) (inst : Inst)
    (rest : List Inst) (mm : List (Nat × Nat)) (heap : List Material)
    (hc : (lookupColor mm inst.color).isSome = true) :
    deinstInsts geometry material (inst :: rest) mm heap =
      if inst.scale = emptyScale then deinstInsts geometry material rest mm heap
      else (ObjList.cons
              (Obj.node (some geometry)
                (some ((lookupColor mm inst.color).getD 0))
                inst.position inst.quaternion inst.scale ObjList.nil)
              (deinstInsts geometry material rest mm heap).1,
            (deinstInsts geometry material rest mm heap).2.1,
            (deinstInsts geometry material rest mm heap).2.2) := by
  rw [deinstInsts]
  simp only [hc, if_true]

/-- Unfolding of the instance loop when the packed colour is not yet cached:
the base material is cloned at the next free heap index and cached. -/
theorem deinstInsts_cons_miss (geometry material : Nat) (inst : Inst)
    (rest : List Inst) (mm : List (Nat × Nat)) (heap : List Material)
    (hc : (lookupColor mm inst.color).isSome = false) :
    deinstInsts geometry material (inst :: rest) mm heap =
      (if inst.scale = emptyScale then
        deinstInsts geometry material rest ((inst.color, heap.length) :: mm)
          (heap ++ [cloneMaterial heap material inst.color])
      else (ObjList.cons
              (Obj.node (some geometry) (some heap.length)
                inst.position inst.quaternion inst.scale ObjList.nil)
              (deinstInsts geometry material rest
                ((inst.color, heap.length) :: mm)
                (heap ++ [cloneMaterial heap material inst.color])).1,
            (deinstInsts geometry material rest
              ((inst.color, heap.length) :: mm)
              (heap ++ [cloneMaterial heap material inst.color])).2.1,
            (deinstInsts geometry material rest
              ((inst.color, heap.length) :: mm)
              (heap ++ [cloneMaterial heap material inst.color])).2.2)) := by
  rw [deinstInsts]
  simp only [hc, if_false, Bool.false_eq_true, lookupColor, if_pos rfl,
    if_true, Option.getD_some]

/-- The instance loop only appends to the material heap: the materials that
existed before the call are untouched. -/
theorem deinstInsts_heap_ext (geometry material : Nat) (insts : List Inst)
    (mm : List (Nat × Nat)) (heap : List Material) :
    ∃ ext, (deinstInsts geometry material insts mm heap).2.2 = heap ++ ext := by
  induction insts generalizing mm heap with
  | nil => exact ⟨[], by rw [List.append_nil]; rfl⟩
  | cons inst rest ih =>
    by_cases hc : (lookupColor mm inst.color).isSome = true
    · rw [deinstInsts_cons_hit geometry material inst rest mm heap hc]
      split
      · exact ih mm heap
      · exact ih mm heap
    · have hc2 : (lookupColor mm inst.color).isSome = false := by
        revert hc
        cases (lookupColor mm inst.color).isSome <;> simp
      rw [deinstInsts_cons_miss geometry material inst rest mm heap hc2]
      obtain ⟨ext, hext⟩ := ih ((inst.color, heap.length) :: mm)
        (heap ++ [cloneMaterial heap material inst.color])
      refine ⟨[cloneMaterial heap material inst.color] ++ ext, ?_⟩
      split
      · rw [hext, List.append_assoc]
      · show (deinstInsts geometry material rest
          ((inst.color, heap.length) :: mm)
          (heap ++ [cloneMaterial heap material inst.color])).2.2 = _
        rw [hext, List.append_assoc]

theorem option_isSome_false {α : Type} {o : Option α} (h : o.isSome = false) :
    o = none := by
  cases o with
  | none => rfl
  | some v => simp at h

/-- Cache-hit case of the loop step leaves cache and heap as the tail run
computes them. -/
theorem deinstInsts_snd_hit (geometry material : Nat) (inst : Inst)
    (rest : List Inst) (mm : List (Nat × Nat)) (heap : List Material)
    (hc : (lookupColor mm inst.color).isSome = true) :
    (deinstInsts geometry material (inst :: rest) mm heap).2 =
      (deinstInsts geometry material rest mm heap).2 := by
  rw [deinstInsts_cons_hit geometry material inst rest mm heap hc]
  split <;> rfl

/-- Cache-miss case of the loop step: cache and heap are those the tail run
computes from the extended cache and heap. -/
theorem deinstInsts_snd_miss (geometry material : Nat) (inst : Inst)
    (rest : List Inst) (mm : List (Nat × Nat)) (heap : List Material)
    (hc : (lookupColor mm inst.color).isSome = false) :
    (deinstInsts geometry material (inst :: rest) mm heap).2 =
      (deinstInsts geometry material rest ((inst.color, heap.length) :: mm)
        (heap ++ [cloneMaterial heap material inst.color])).2 := by
  rw [deinstInsts_cons_miss geometry material inst rest mm heap hc]
  split <;> rfl

/-- Entries already in the cache survive the instance loop unchanged: the
cache only ever grows by colours that were absent. -/
theorem deinstInsts_lookup_mono (geometry material : Nat) (insts : List Inst)
    (mm : List (Nat × Nat)) (heap : List Material) (c i : Nat)
    (h : lookupColor mm c = some i) :
    lookupColor (deinstInsts geometry material insts mm heap).2.1 c = some i := by
  induction insts generalizing mm heap with
  | nil => exact h
  | cons inst rest ih =>
    by_cases hc : (lookupColor mm inst.color).isSome = true
    · rw [congrArg Prod.fst (deinstInsts_snd_hit geometry material inst rest mm heap hc)]
      exact ih mm heap h
    · have hc2 : (lookupColor mm inst.color).isSome = false := by
        revert hc
        cases (lookupColor mm inst.color).isSome <;> simp
      rw [congrArg Prod.fst (deinstInsts_snd_miss geometry material inst rest mm heap hc2)]
      exact ih _ _ (lookupColor_insert_of_lookup inst.color heap.length
        (option_isSome_false hc2) h)

/-- After the instance loop, every processed instance colour is cached. -/
theorem deinstInsts_color_present (geometry material : Nat) (insts : List Inst)
    (mm : List (Nat × Nat)) (heap : List Material) :
    ∀ i ∈ insts,
      (lookupColor (deinstInsts geometry material insts mm heap).2.1 i.color).isSome
        = true := by
  induction insts generalizing mm heap with
  | nil => intro i hi; simp at hi
  | cons inst rest ih =>
    intro i hi
    by_cases hc : (lookupColor mm inst.color).isSome = true
    · rw [congrArg Prod.fst (deinstInsts_snd_hit geometry material inst rest mm heap hc)]
      rcases List.mem_cons.mp hi with he | hm
      · obtain ⟨id, hid⟩ := Option.isSome_iff_exists.mp hc
        rw [he]
        rw [deinstInsts_lookup_mono geometry material rest mm heap inst.color id hid]
        rfl
      · exact ih mm heap i hm
    · have hc2 : (lookupColor mm inst.color).isSome = false := by
        revert hc
        cases (lookupColor mm inst.color).isSome <;> simp
      rw [congrArg Prod.fst (deinstInsts_snd_miss geometry material inst rest mm heap hc2)]
      rcases List.mem_cons.mp hi with he | hm
      · rw [he]
        rw [deinstInsts_lookup_mono geometry material rest _ _ inst.color heap.length
          (lookupColor_insert_self mm inst.color heap.length)]
        rfl
      · exact ih _ _ i hm

/-- The group receives exactly one mesh per instance whose decomposed scale
is not the sentinel. -/
theorem deinstInsts_numChildren (geometry material : Nat) (insts : List Inst)
    (mm : List (Nat × Nat)) (heap : List Material) :
    (deinstInsts geometry material insts mm heap).1.numChildren =
      (insts.filter Inst.kept).length := by
  induction insts generalizing mm heap with
  | nil => rfl
  | cons inst rest ih =>
    by_cases hs : inst.scale = emptyScale
    · have hkept : Inst.kept inst = false := by
        simp [Inst.kept, hs]
      rw [List.filter_cons_of_neg (by simp [hkept])]
      by_cases hc : (lookupColor mm inst.color).isSome = true
      · rw [deinstInsts_cons_hit geometry material inst rest mm heap hc,
          if_pos hs]
        exact ih mm heap
      · have hc2 : (lookupColor mm inst.color).isSome = false := by
          revert hc
          cases (lookupColor mm inst.color).isSome <;> simp
        rw [deinstInsts_cons_miss geometry material inst rest mm heap hc2,
          if_pos hs]
        exact ih _ _
    · have hkept : Inst.kept inst = true := by
        simp [Inst.kept, hs]
      rw [List.filter_cons_of_pos (by simp [hkept]), List.length_cons]
      by_cases hc : (lookupColor mm inst.color).isSome = true
      · rw [deinstInsts_cons_hit geometry material inst rest mm heap hc,
          if_neg hs]
        show 1 + (deinstInsts geometry material rest mm heap).1.numChildren = _
        rw [ih mm heap]
        omega
      · have hc2 : (lookupColor mm inst.color).isSome = false := by
          revert hc
          cases (lookupColor mm inst.color).isSome <;> simp
        rw [deinstInsts_cons_miss geometry material inst rest mm heap hc2,
          if_neg hs]
        show 1 + (deinstInsts geometry material rest
          ((inst.color, heap.length) :: mm)
          (heap ++ [cloneMaterial heap material inst.color])).1.numChildren = _
        rw [ih _ _]
        omega

/-- The materials of the produced meshes are exactly the final cache entries
for the surviving instances' packed colours, in instance order.  In
particular the material of every produced mesh is a function of its
instance's 24-bit colour alone. -/
theorem deinstInsts_topMaterials (geometry material : Nat) (insts : List Inst)
    (mm : List (Nat × Nat)) (heap : List Material) :
    (deinstInsts geometry material insts mm heap).1.topMaterials =
      (insts.filter Inst.kept).map (fun i =>
        (lookupColor (deinstInsts geometry material insts mm heap).2.1 i.color).getD 0) := by
  induction insts generalizing mm heap with
  | nil => rfl
  | cons inst rest ih =>
    by_cases hc : (lookupColor mm inst.color).isSome = true
    · rw [congrArg Prod.fst (deinstInsts_snd_hit geometry material inst rest mm heap hc)]
      rw [show (deinstInsts geometry material (inst :: rest) mm heap).1 =
          (if inst.scale = emptyScale then
            (deinstInsts geometry material rest mm heap).1
          else ObjList.cons
            (Obj.node (some geometry) (some ((lookupColor mm inst.color).getD 0))
              inst.position inst.quaternion inst.scale ObjList.nil)
            (deinstInsts geometry material rest mm heap).1) from by
        rw [deinstInsts_cons_hit geometry material inst rest mm heap hc]
        split <;> rfl]
      by_cases hs : inst.scale = emptyScale
      · rw [if_pos hs,
          List.filter_cons_of_neg (by simp [Inst.kept, hs])]
        exact ih mm heap
      · rw [if_neg hs,
          List.filter_cons_of_pos (by simp [Inst.kept, hs]), List.map_cons]
        rw [show (ObjList.cons
            (Obj.node (some geometry) (some ((lookupColor mm inst.color).getD 0))
              inst.position inst.quaternion inst.scale ObjList.nil)
            (deinstInsts geometry material rest mm heap).1).topMaterials =
          ((lookupColor mm inst.color).getD 0) ::
            (deinstInsts geometry material rest mm heap).1.topMaterials from rfl]
        obtain ⟨id, hid⟩ := Option.isSome_iff_exists.mp hc
        rw [ih mm heap, hid,
          deinstInsts_lookup_mono geometry material rest mm heap inst.color id hid]
    · have hc2 : (lookupColor mm inst.color).isSome = false := by
        revert hc
        cases (lookupColor mm inst.color).isSome <;> simp
      rw [congrArg Prod.fst (deinstInsts_snd_miss geometry material inst rest mm heap hc2)]
      rw [show (deinstInsts geometry material (inst :: rest) mm heap).1 =
          (if inst.scale = emptyScale then
            (deinstInsts geometry material rest ((inst.color, heap.length) :: mm)
              (heap ++ [cloneMaterial heap material inst.color])).1
          else ObjList.cons
            (Obj.node (some geometry) (some heap.length)
              inst.position inst.quaternion inst.scale ObjList.nil)
            (deinstInsts geometry material rest ((inst.color, heap.length) :: mm)
              (heap ++ [cloneMaterial heap material inst.color])).1) from by
        rw [deinstInsts_cons_miss geometry material inst rest mm heap hc2]
        split <;> rfl]
      by_cases hs : inst.scale = emptyScale
      · rw [if_pos hs,
          List.filter_cons_of_neg (by simp [Inst.kept, hs])]
        exact ih _ _
      · rw [if_neg hs,
          List.filter_cons_of_pos (by simp [Inst.kept, hs]), List.map_cons]
        rw [show (ObjList.cons
            (Obj.node (some geometry) (some heap.length)
              inst.position inst.quaternion inst.scale ObjList.nil)
            (deinstInsts geometry material rest ((inst.color, heap.length) :: mm)
              (heap ++ [cloneMaterial heap material inst.color])).1).topMaterials =
          heap.length ::
            (deinstInsts geometry material rest ((inst.color, heap.length) :: mm)
              (heap ++ [cloneMaterial heap material inst.color])).1.topMaterials
          from rfl]
        rw [ih _ _,
          deinstInsts_lookup_mono geometry material rest _ _ inst.color heap.length
            (lookupColor_insert_self mm inst.color heap.length)]
        rfl

theorem lookupColor_none_not_key {mm : List (Nat × Nat)} {c : Nat}
    (h : lookupColor mm c = none) : ∀ p ∈ mm, p.1 ≠ c := by
  induction mm with
  | nil => intro p hp; simp at hp
  | cons q qs ih =>
    rw [lookupColor] at h
    by_cases hq : q.1 = c
    · rw [if_pos hq] at h
      exact Option.noConfusion h
    · rw [if_neg hq] at h
      intro p hp
      rcases List.mem_cons.mp hp with he | hm
      · rw [he]; exact hq
      · exact ih h p hm

/-- Distinct cached colours are mapped to distinct material clones. -/
theorem lookupColor_inj {mm : List (Nat × Nat)}
    (hv : (mm.map Prod.snd).Nodup) {c1 c2 i1 i2 : Nat}
    (h1 : lookupColor mm c1 = some i1) (h2 : lookupColor mm c2 = some i2)
    (hne : c1 ≠ c2) : i1 ≠ i2 := by
  intro he
  apply hne
  have m1 := lookupColor_mem h1
  have m2 := lookupColor_mem h2
  have heq := List.inj_on_of_nodup_map hv m1 m2 (by rw [he])
  exact congrArg Prod.fst heq

/-- The colour→material cache invariants are preserved by the instance loop:
distinct colours stay distinct, distinct clone indices stay distinct, and
every cached index points into the heap. -/
theorem deinstInsts_cacheOK (geometry material : Nat) (insts : List Inst)
    (mm : List (Nat × Nat)) (heap : List Material)
    (hk : (mm.map Prod.fst).Nodup) (hv : (mm.map Prod.snd).Nodup)
    (hb : ∀ p ∈ mm, p.2 < heap.length) :
    ((deinstInsts geometry material insts mm heap).2.1.map Prod.fst).Nodup
    ∧ ((deinstInsts geometry material insts mm heap).2.1.map Prod.snd).Nodup
    ∧ (∀ p ∈ (deinstInsts geometry material insts mm heap).2.1,
        p.2 < (deinstInsts geometry material insts mm heap).2.2.length) := by
  induction insts generalizing mm heap with
  | nil => exact ⟨hk, hv, hb⟩
  | cons inst rest ih =>
    by_cases hc : (lookupColor mm inst.color).isSome = true
    · rw [deinstInsts_snd_hit geometry material inst rest mm heap hc]
      exact ih mm heap hk hv hb
    · have hc2 : (lookupColor mm inst.color).isSome = false := by
        revert hc
        cases (lookupColor mm inst.color).isSome <;> simp
      have hnone := option_isSome_false hc2
      rw [deinstInsts_snd_miss geometry material inst rest mm heap hc2]
      refine ih _ _ ?_ ?_ ?_
      · rw [List.map_cons, List.nodup_cons]
        refine ⟨?_, hk⟩
        intro hmem
        obtain ⟨p, hp, hpc⟩ := List.mem_map.mp hmem
        exact lookupColor_none_not_key hnone p hp hpc
      · rw [List.map_cons, List.nodup_cons]
        refine ⟨?_, hv⟩
        intro hmem
        obtain ⟨p, hp, hpc⟩ := List.mem_map.mp hmem
        have := hb p hp
        omega
      · intro p hp
        rw [List.length_append, List.length_cons, List.length_nil]
        rcases List.mem_cons.mp hp with he | hm
        · rw [he]
          omega
        · have := hb p hm
          omega

/-- Every cache entry of the instance loop is either inherited from the
input cache or a fresh clone allocated at or beyond the input heap's end. -/
theorem deinstInsts_cache_sub (geometry material : Nat) (insts : List Inst)
    (mm : List (Nat × Nat)) (heap : List Material) :
    ∀ p ∈ (deinstInsts geometry material insts mm heap).2.1,
      p ∈ mm ∨ heap.length ≤ p.2 := by
  induction insts generalizing mm heap with
  | nil => intro p hp; exact Or.inl hp
  | cons inst rest ih =>
    intro p hp
    by_cases hc : (lookupColor mm inst.color).isSome = true
    · rw [deinstInsts_snd_hit geometry material inst rest mm heap hc] at hp
      exact ih mm heap p hp
    · have hc2 : (lookupColor mm inst.color).isSome = false := by
        revert hc
        cases (lookupColor mm inst.color).isSome <;> simp
      rw [deinstInsts_snd_miss geometry material inst rest mm heap hc2] at hp
      rcases ih _ _ p hp with hin | hge
      · rcases List.mem_cons.mp hin with he | hm
        · right
          rw [he]
        · exact Or.inl hm
      · right
        rw [List.length_append, List.length_cons, List.length_nil] at hge
        omega

/-- Splitting the instances by the sentinel test partitions them. -/
theorem length_filter_kept_add (insts : List Inst) :
    (insts.filter Inst.kept).length
      + (insts.filter (fun i => decide (i.scale = emptyScale))).length
      = insts.length := by
  induction insts with
  | nil => rfl
  | cons inst rest ih =>
    by_cases hs : inst.scale = emptyScale
    · rw [List.filter_cons_of_neg (by simp [Inst.kept, hs]),
        List.filter_cons_of_pos (by simp [hs])]
      simp only [List.length_cons]
      omega
    · rw [List.filter_cons_of_pos (by simp [Inst.kept, hs]),
        List.filter_cons_of_neg (by simp [hs])]
      simp only [List.length_cons]
      omega

/-- A top-level de-instancing of an instanced mesh produces a group whose
children are exactly the instance loop's meshes (definitional). -/
theorem deinstantiateTop_instanced (geometry material : Nat)
    (insts : List Inst) (heap : List Material) :
    deinstantiateTop (Obj.instanced geometry material insts) heap =
      (Obj.node none none ⟨0, 0, 0⟩ identityQuat unitScale
        (deinstInsts geometry material insts [] heap).1,
       (deinstInsts geometry material insts [] heap).2.1,
       (deinstInsts geometry material insts [] heap).2.2) := rfl

/-- C3: de-instancing an instanced primitive with N instances, none of which
carries the zero-scale sentinel, yields exactly N discrete mesh nodes; when
all instance colours are pairwise distinct the meshes reference N pairwise
distinct materials, and when all N instances share one colour every mesh
references the single cached material clone for that colour. -/
theorem deinstantiate_material_dedup (geometry material : Nat)
    (insts : List Inst) (heap : List Material)
    (hs : ∀ i ∈ insts, i.scale ≠ emptyScale) :
    ((deinstantiateTop (Obj.instanced geometry material insts) heap).1.childrenOf.numChildren
        = insts.length)
    ∧ ((insts.map Inst.color).Nodup →
        (deinstantiateTop (Obj.instanced geometry material insts) heap).1.childrenOf.topMaterials.Nodup)
    ∧ (∀ c, (∀ i ∈ insts, i.color = c) →
        (deinstantiateTop (Obj.instanced geometry material insts) heap).1.childrenOf.topMaterials
          = List.replicate insts.length
              ((lookupColor
                (deinstantiateTop (Obj.instanced geometry material insts) heap).2.1
                c).getD 0)) := by
  have hfilter : insts.filter Inst.kept = insts :=
    List.filter_eq_self.mpr (fun i hi => by simp [Inst.kept, hs i hi])
  have hchildren :
      (deinstantiateTop (Obj.instanced geometry material insts) heap).1.childrenOf
        = (deinstInsts geometry material insts [] heap).1 := rfl
  have hmm :
      (deinstantiateTop (Obj.instanced geometry material insts) heap).2.1
        = (deinstInsts geometry material insts [] heap).2.1 := rfl
  refine ⟨?_, ?_, ?_⟩
  · rw [hchildren, deinstInsts_numChildren, hfilter]
  · intro hnodup
    rw [hchildren, deinstInsts_topMaterials, hfilter]
    have hcolor_inj := List.inj_on_of_nodup_map hnodup
    obtain ⟨-, hv, -⟩ := deinstInsts_cacheOK geometry material insts [] heap
      (by simp) (by simp) (by intro p hp; simp at hp)
    refine List.Nodup.map_on ?_ (List.Nodup.of_map Inst.color hnodup)
    intro x hx y hy hf
    by_contra hxy
    have hcne : x.color ≠ y.color := fun hce => hxy (hcolor_inj hx hy hce)
    obtain ⟨idx, hidx⟩ := Option.isSome_iff_exists.mp
      (deinstInsts_color_present geometry material insts [] heap x hx)
    obtain ⟨idy, hidy⟩ := Option.isSome_iff_exists.mp
      (deinstInsts_color_present geometry material insts [] heap y hy)
    rw [hidx, hidy] at hf
    exact lookupColor_inj hv hidx hidy hcne (by simpa using hf)
  · intro c hc
    rw [hchildren, hmm, deinstInsts_topMaterials, hfilter]
    have hlen : insts.length =
        (insts.map (fun i =>
          (lookupColor (deinstInsts geometry material insts [] heap).2.1 i.color).getD 0)).length := by
      rw [List.length_map]
    rw [hlen]
    refine List.eq_replicate_length.mpr ?_
    intro b hb
    obtain ⟨i, hi, hbi⟩ := List.mem_map.mp hb
    rw [← hbi, hc i hi]

/-- C3 witness: two non-sentinel instances with distinct colours give two
meshes with distinct materials; two instances sharing colour 5 give meshes
referencing one shared clone. -/
theorem deinstantiate_material_dedup_witness :
    ((deinstantiateTop (Obj.instanced 0 0
        [⟨⟨0, 0, 0⟩, identityQuat, ⟨1, 1, 1⟩, 1⟩,
         ⟨⟨0, 0, 0⟩, identityQuat, ⟨1, 1, 1⟩, 2⟩]) [⟨7, 3⟩]).1.childrenOf.numChildren = 2
      ∧ (deinstantiateTop (Obj.instanced 0 0
        [⟨⟨0, 0, 0⟩, identityQuat, ⟨1, 1, 1⟩, 1⟩,
         ⟨⟨0, 0, 0⟩, identityQuat, ⟨1, 1, 1⟩, 2⟩]) [⟨7, 3⟩]).1.childrenOf.topMaterials.Nodup)
    ∧ (deinstantiateTop (Obj.instanced 0 0
        [⟨⟨0, 0, 0⟩, identityQuat, ⟨1, 1, 1⟩, 5⟩,
         ⟨⟨0, 0, 0⟩, identityQuat, ⟨2, 2, 2⟩, 5⟩]) [⟨7, 3⟩]).1.childrenOf.topMaterials
        = List.replicate 2
            ((lookupColor (deinstantiateTop (Obj.instanced 0 0
              [⟨⟨0, 0, 0⟩, identityQuat, ⟨1, 1, 1⟩, 5⟩,
               ⟨⟨0, 0, 0⟩, identityQuat, ⟨2, 2, 2⟩, 5⟩]) [⟨7, 3⟩]).2.1 5).getD 0) :=
  ⟨⟨(deinstantiate_material_dedup 0 0 _ [⟨7, 3⟩] (by decide)).1,
    (deinstantiate_material_dedup 0 0 _ [⟨7, 3⟩] (by decide)).2.1 (by decide)⟩,
   (deinstantiate_material_dedup 0 0 _ [⟨7, 3⟩] (by decide)).2.2 5 (by decide)⟩

/-- C4: de-instancing an instanced primitive with N instances of which
exactly k carry the zero-scale sentinel produces a group with exactly N − k
child meshes: the k sentinel instances are discarded, all others appear. -/
theorem deinstantiate_excludes_padding (geometry material : Nat)
    (insts : List Inst) (heap : List Material) (k : Nat)
    (hk : k = (insts.filter (fun i => decide (i.scale = emptyScale))).length) :
    (deinstantiateTop (Obj.instanced geometry material insts) heap).1.childrenOf.numChildren
      = insts.length - k := by
  have hchildren :
      (deinstantiateTop (Obj.instanced geometry material insts) heap).1.childrenOf
        = (deinstInsts geometry material insts [] heap).1 := rfl
  rw [hchildren, deinstInsts_numChildren]
  have := length_filter_kept_add insts
  omega

/-- C4 witness: of three instances, one with the sentinel zero scale, exactly
two meshes survive. -/
theorem deinstantiate_excludes_padding_witness :
    (deinstantiateTop (Obj.instanced 0 0
      [⟨⟨0, 0, 0⟩, identityQuat, ⟨1, 1, 1⟩, 1⟩,
       ⟨⟨0, 0, 0⟩, identityQuat, ⟨0, 0, 0⟩, 2⟩,
       ⟨⟨0, 0, 0⟩, identityQuat, ⟨1, 1, 2⟩, 3⟩]) [⟨7, 3⟩]).1.childrenOf.numChildren
      = 3 - 1 :=
  deinstantiate_excludes_padding 0 0 _ [⟨7, 3⟩] 1 (by decide)

/-! ### Whole-tree lemmas -/

mutual
/-- De-instancing any node only appends to the material heap. -/
theorem deinstantiate_heap_ext (o : Obj) (mm : List (Nat × Nat))
    (heap : List Material) :
    ∃ ext, (deinstantiate o mm heap).2.2 = heap ++ ext := by
  cases o with
  | node geo mat pos q sc children =>
    exact deinstantiateList_heap_ext children mm heap
  | instanced geo mat insts =>
    exact deinstInsts_heap_ext geo mat insts mm heap
/-- De-instancing a child list only appends to the material heap. -/
theorem deinstantiateList_heap_ext (l : ObjList) (mm : List (Nat × Nat))
    (heap : List Material) :
    ∃ ext, (deinstantiateList l mm heap).2.2 = heap ++ ext := by
  cases l with
  | nil => exact ⟨[], (List.append_nil heap).symm⟩
  | cons c cs =>
    obtain ⟨e1, h1⟩ := deinstantiate_heap_ext c mm heap
    obtain ⟨e2, h2⟩ := deinstantiateList_heap_ext cs
      (deinstantiate c mm heap).2.1 (deinstantiate c mm heap).2.2
    refine ⟨e1 ++ e2, ?_⟩
    show (deinstantiateList cs (deinstantiate c mm heap).2.1
      (deinstantiate c mm heap).2.2).2.2 = heap ++ (e1 ++ e2)
    rw [h2, h1, List.append_assoc]
end

mutual
/-- Cached entries survive de-instancing of any node. -/
theorem deinstantiate_lookup_mono (o : Obj) (mm : List (Nat × Nat))
    (heap : List Material) (c i : Nat) (h : lookupColor mm c = some i) :
    lookupColor (deinstantiate o mm heap).2.1 c = some i := by
  cases o with
  | node geo mat pos q sc children =>
    exact deinstantiateList_lookup_mono children mm heap c i h
  | instanced geo mat insts =>
    exact deinstInsts_lookup_mono geo mat insts mm heap c i h
/-- Cached entries survive de-instancing of a child list. -/
theorem deinstantiateList_lookup_mono (l : ObjList) (mm : List (Nat × Nat))
    (heap : List Material) (c i : Nat) (h : lookupColor mm c = some i) :
    lookupColor (deinstantiateList l mm heap).2.1 c = some i := by
  cases l with
  | nil => exact h
  | cons a cs =>
    exact deinstantiateList_lookup_mono cs (deinstantiate a mm heap).2.1
      (deinstantiate a mm heap).2.2 c i
      (deinstantiate_lookup_mono a mm heap c i h)
end

mutual
/-- Every cache entry after de-instancing a node is inherited or fresh. -/
theorem deinstantiate_cache_sub (o : Obj) (mm : List (Nat × Nat))
    (heap : List Material) :
    ∀ p ∈ (deinstantiate o mm heap).2.1, p ∈ mm ∨ heap.length ≤ p.2 := by
  cases o with
  | node geo mat pos q sc children =>
    exact deinstantiateList_cache_sub children mm heap
  | instanced geo mat insts =>
    exact deinstInsts_cache_sub geo mat insts mm heap
/-- Every cache entry after de-instancing a child list is inherited or
fresh. -/
theorem deinstantiateList_cache_sub (l : ObjList) (mm : List (Nat × Nat))
    (heap : List Material) :
    ∀ p ∈ (deinstantiateList l mm heap).2.1, p ∈ mm ∨ heap.length ≤ p.2 := by
  cases l with
  | nil => intro p hp; exact Or.inl hp
  | cons a cs =>
    intro p hp
    rcases deinstantiateList_cache_sub cs (deinstantiate a mm heap).2.1
      (deinstantiate a mm heap).2.2 p hp with hin | hge
    · rcases deinstantiate_cache_sub a mm heap p hin with h1 | h2
      · exact Or.inl h1
      · exact Or.inr h2
    · right
      obtain ⟨ext, hext⟩ := deinstantiate_heap_ext a mm heap
      rw [hext, List.length_append] at hge
      omega
end

/-- C10: the colour→material cache is scoped to one top-level `deinstantiate`
call.  For a scene holding two instanced primitives: (a) the top-level call
threads one cache through both primitives (definitional unfolding); (b) the
material of every produced mesh, in either group, is obtained by looking its
instance's 24-bit packed colour up in the one final cache of the call, so
instances with equal packed colour share one clone even across the two
primitives; (c) every material handed out by this call is a clone living
inside the call's final heap, while any later top-level call (fresh empty
cache, because the `materialMap` argument is omitted) only hands out clones
allocated at or beyond the end of that heap — the two invocations never
share clones. -/
theorem deinstantiate_cache_per_invocation
    (g1 m1 g2 m2 : Nat) (insts1 insts2 : List Inst)
    (geo mat : Option Nat) (pos : Vec3) (q : Quat) (sc : Vec3)
    (heap : List Material) :
    (deinstantiateTop (Obj.node geo mat pos q sc
        (ObjList.cons (Obj.instanced g1 m1 insts1)
          (ObjList.cons (Obj.instanced g2 m2 insts2) ObjList.nil))) heap
      = (Obj.node geo mat pos q sc
          (ObjList.cons (Obj.node none none ⟨0, 0, 0⟩ identityQuat unitScale
              (deinstInsts g1 m1 insts1 [] heap).1)
            (ObjList.cons (Obj.node none none ⟨0, 0, 0⟩ identityQuat unitScale
              (deinstInsts g2 m2 insts2
                (deinstInsts g1 m1 insts1 [] heap).2.1
                (deinstInsts g1 m1 insts1 [] heap).2.2).1) ObjList.nil)),
         (deinstInsts g2 m2 insts2 (deinstInsts g1 m1 insts1 [] heap).2.1
            (deinstInsts g1 m1 insts1 [] heap).2.2).2.1,
         (deinstInsts g2 m2 insts2 (deinstInsts g1 m1 insts1 [] heap).2.1
            (deinstInsts g1 m1 insts1 [] heap).2.2).2.2))
    ∧ ((deinstInsts g1 m1 insts1 [] heap).1.topMaterials
        = (insts1.filter Inst.kept).map (fun i =>
            (lookupColor (deinstInsts g2 m2 insts2
              (deinstInsts g1 m1 insts1 [] heap).2.1
              (deinstInsts g1 m1 insts1 [] heap).2.2).2.1 i.color).getD 0))
    ∧ ((deinstInsts g2 m2 insts2 (deinstInsts g1 m1 insts1 [] heap).2.1
          (deinstInsts g1 m1 insts1 [] heap).2.2).1.topMaterials
        = (insts2.filter Inst.kept).map (fun i =>
            (lookupColor (deinstInsts g2 m2 insts2
              (deinstInsts g1 m1 insts1 [] heap).2.1
              (deinstInsts g1 m1 insts1 [] heap).2.2).2.1 i.color).getD 0))
    ∧ (∀ x ∈ (deinstInsts g1 m1 insts1 [] heap).1.topMaterials,
        x < (deinstInsts g2 m2 insts2 (deinstInsts g1 m1 insts1 [] heap).2.1
          (deinstInsts g1 m1 insts1 [] heap).2.2).2.2.length)
    ∧ (∀ x ∈ (deinstInsts g2 m2 insts2 (deinstInsts g1 m1 insts1 [] heap).2.1
          (deinstInsts g1 m1 insts1 [] heap).2.2).1.topMaterials,
        x < (deinstInsts g2 m2 insts2 (deinstInsts g1 m1 insts1 [] heap).2.1
          (deinstInsts g1 m1 insts1 [] heap).2.2).2.2.length)
    ∧ (∀ (o : Obj) (c x : Nat),
        lookupColor (deinstantiateTop o
          (deinstInsts g2 m2 insts2 (deinstInsts g1 m1 insts1 [] heap).2.1
            (deinstInsts g1 m1 insts1 [] heap).2.2).2.2).2.1 c = some x →
        (deinstInsts g2 m2 insts2 (deinstInsts g1 m1 insts1 [] heap).2.1
          (deinstInsts g1 m1 insts1 [] heap).2.2).2.2.length ≤ x) := by
  obtain ⟨hk1, hv1, hb1⟩ := deinstInsts_cacheOK g1 m1 insts1 [] heap
    (by simp) (by simp) (by intro p hp; simp at hp)
  obtain ⟨hkF, hvF, hbF⟩ := deinstInsts_cacheOK g2 m2 insts2
    (deinstInsts g1 m1 insts1 [] heap).2.1
    (deinstInsts g1 m1 insts1 [] heap).2.2 hk1 hv1 hb1
  refine ⟨rfl, ?_, deinstInsts_topMaterials g2 m2 insts2 _ _, ?_, ?_, ?_⟩
  · rw [deinstInsts_topMaterials g1 m1 insts1 [] heap]
    refine List.map_congr_left ?_
    intro i hi
    obtain ⟨id, hid⟩ := Option.isSome_iff_exists.mp
      (deinstInsts_color_present g1 m1 insts1 [] heap i
        (List.mem_of_mem_filter hi))
    rw [hid, deinstInsts_lookup_mono g2 m2 insts2 _ _ i.color id hid]
  · intro x hx
    rw [deinstInsts_topMaterials g1 m1 insts1 [] heap] at hx
    obtain ⟨i, hi, hix⟩ := List.mem_map.mp hx
    obtain ⟨id, hid⟩ := Option.isSome_iff_exists.mp
      (deinstInsts_color_present g1 m1 insts1 [] heap i
        (List.mem_of_mem_filter hi))
    rw [hid] at hix
    have hf := deinstInsts_lookup_mono g2 m2 insts2
      (deinstInsts g1 m1 insts1 [] heap).2.1
      (deinstInsts g1 m1 insts1 [] heap).2.2 i.color id hid
    have hmem := lookupColor_mem hf
    have := hbF _ hmem
    rw [← hix]
    exact this
  · intro x hx
    rw [deinstInsts_topMaterials g2 m2 insts2 _ _] at hx
    obtain ⟨i, hi, hix⟩ := List.mem_map.mp hx
    obtain ⟨id, hid⟩ := Option.isSome_iff_exists.mp
      (deinstInsts_color_present g2 m2 insts2 _ _ i
        (List.mem_of_mem_filter hi))
    rw [hid] at hix
    have hmem := lookupColor_mem hid
    have := hbF _ hmem
    rw [← hix]
    exact this
  · intro o c x hx
    have hmem := lookupColor_mem hx
    rcases deinstantiate_cache_sub o [] _ _ hmem with hin | hge
    · simp at hin
    · exact hge

/-- C10 witness: in a two-primitive scene whose instances all share colour 5,
the single material clone handed to the first primitive's mesh (heap index 0)
lies inside the call's final heap. -/
theorem deinstantiate_cache_per_invocation_witness :
    (0 : Nat) <
      (deinstInsts 0 0 [⟨⟨0, 0, 0⟩, identityQuat, ⟨2, 2, 2⟩, 5⟩]
        (deinstInsts 0 0 [⟨⟨0, 0, 0⟩, identityQuat, ⟨1, 1, 1⟩, 5⟩] [] []).2.1
        (deinstInsts 0 0 [⟨⟨0, 0, 0⟩, identityQuat, ⟨1, 1, 1⟩, 5⟩] [] []).2.2).2.2.length :=
  (deinstantiate_cache_per_invocation 0 0 0 0
      [⟨⟨0, 0, 0⟩, identityQuat, ⟨1, 1, 1⟩, 5⟩]
      [⟨⟨0, 0, 0⟩, identityQuat, ⟨2, 2, 2⟩, 5⟩]
      none none ⟨0, 0, 0⟩ identityQuat ⟨1, 1, 1⟩ []).2.2.2.1 0 (by decide)

mutual
/-- All geometry references appearing anywhere in a node's tree. -/
def Obj.geoms : Obj → List Nat
  | Obj.node g _ _ _ _ cs => g.toList ++ ObjList.geoms cs
  | Obj.instanced g _ _ => [g]
/-- All geometry references appearing in a child list's trees. -/
def ObjList.geoms : ObjList → List Nat
  | ObjList.nil => []
  | ObjList.cons c cs => Obj.geoms c ++ ObjList.geoms cs
end

mutual
/-- All material references appearing anywhere in a node's tree. -/
def Obj.mats : Obj → List Nat
  | Obj.node _ m _ _ _ cs => m.toList ++ ObjList.mats cs
  | Obj.instanced _ m _ => [m]
/-- All material references appearing in a child list's trees. -/
def ObjList.mats : ObjList → List Nat
  | ObjList.nil => []
  | ObjList.cons c cs => Obj.mats c ++ ObjList.mats cs
end

/-- Every mesh produced by the instance loop references the shared base
geometry. -/
theorem deinstInsts_geoms (geometry material : Nat) (insts : List Inst)
    (mm : List (Nat × Nat)) (heap : List Material) :
    ∀ x ∈ ObjList.geoms (deinstInsts geometry material insts mm heap).1,
      x = geometry := by
  induction insts generalizing mm heap with
  | nil => intro x hx; simp [deinstInsts, ObjList.geoms] at hx
  | cons inst rest ih =>
    intro x hx
    by_cases hc : (lookupColor mm inst.color).isSome = true
    · rw [show (deinstInsts geometry material (inst :: rest) mm heap).1 =
          (if inst.scale = emptyScale then
            (deinstInsts geometry material rest mm heap).1
          else ObjList.cons
            (Obj.node (some geometry) (some ((lookupColor mm inst.color).getD 0))
              inst.position inst.quaternion inst.scale ObjList.nil)
            (deinstInsts geometry material rest mm heap).1) from by
        rw [deinstInsts_cons_hit geometry material inst rest mm heap hc]
        split <;> rfl] at hx
      by_cases hs : inst.scale = emptyScale
      · rw [if_pos hs] at hx
        exact ih mm heap x hx
      · rw [if_neg hs] at hx
        rcases List.mem_append.mp hx with h1 | h2
        · simp [Obj.geoms, ObjList.geoms, Option.toList] at h1
          exact h1
        · exact ih mm heap x h2
    · have hc2 : (lookupColor mm inst.color).isSome = false := by
        revert hc
        cases (lookupColor mm inst.color).isSome <;> simp
      rw [show (deinstInsts geometry material (inst :: rest) mm heap).1 =
          (if inst.scale = emptyScale then
            (deinstInsts geometry material rest ((inst.color, heap.length) :: mm)
              (heap ++ [cloneMaterial heap material inst.color])).1
          else ObjList.cons
            (Obj.node (some geometry) (some heap.length)
              inst.position inst.quaternion inst.scale ObjList.nil)
            (deinstInsts geometry material rest ((inst.color, heap.length) :: mm)
              (heap ++ [cloneMaterial heap material inst.color])).1) from by
        rw [deinstInsts_cons_miss geometry material inst rest mm heap hc2]
        split <;> rfl] at hx
      by_cases hs : inst.scale = emptyScale
      · rw [if_pos hs] at hx
        exact ih _ _ x hx
      · rw [if_neg hs] at hx
        rcases List.mem_append.mp hx with h1 | h2
        · simp [Obj.geoms, ObjList.geoms, Option.toList] at h1
          exact h1
        · exact ih _ _ x h2

/-- The material lists of the instance-loop meshes coincide with their
top-level materials (meshes have no children). -/
theorem deinstInsts_mats_eq_top (geometry material : Nat) (insts : List Inst)
    (mm : List (Nat × Nat)) (heap : List Material) :
    ObjList.mats (deinstInsts geometry material insts mm heap).1 =
      (deinstInsts geometry material insts mm heap).1.topMaterials := by
  induction insts generalizing mm heap with
  | nil => rfl
  | cons inst rest ih =>
    by_cases hc : (lookupColor mm inst.color).isSome = true
    · rw [show (deinstInsts geometry material (inst :: rest) mm heap).1 =
          (if inst.scale = emptyScale then
            (deinstInsts geometry material rest mm heap).1
          else ObjList.cons
            (Obj.node (some geometry) (some ((lookupColor mm inst.color).getD 0))
              inst.position inst.quaternion inst.scale ObjList.nil)
            (deinstInsts geometry material rest mm heap).1) from by
        rw [deinstInsts_cons_hit geometry material inst rest mm heap hc]
        split <;> rfl]
      by_cases hs : inst.scale = emptyScale
      · rw [if_pos hs]
        exact ih mm heap
      · rw [if_neg hs]
        show ((lookupColor mm inst.color).getD 0) ::
            ObjList.mats (deinstInsts geometry material rest mm heap).1 = _
        rw [ih mm heap]
        rfl
    · have hc2 : (lookupColor mm inst.color).isSome = false := by
        revert hc
        cases (lookupColor mm inst.color).isSome <;> simp
      rw [show (deinstInsts geometry material (inst :: rest) mm heap).1 =
          (if inst.scale = emptyScale then
            (deinstInsts geometry material rest ((inst.color, heap.length) :: mm)
              (heap ++ [cloneMaterial heap material inst.color])).1
          else ObjList.cons
            (Obj.node (some geometry) (some heap.length)
              inst.position inst.quaternion inst.scale ObjList.nil)
            (deinstInsts geometry material rest ((inst.color, heap.length) :: mm)
              (heap ++ [cloneMaterial heap material inst.color])).1) from by
        rw [deinstInsts_cons_miss geometry material inst rest mm heap hc2]
        split <;> rfl]
      by_cases hs : inst.scale = emptyScale
      · rw [if_pos hs]
        exact ih _ _
      · rw [if_neg hs]
        show heap.length ::
            ObjList.mats (deinstInsts geometry material rest
              ((inst.color, heap.length) :: mm)
              (heap ++ [cloneMaterial heap material inst.color])).1 = _
        rw [ih _ _]
        rfl

/-- Every material referenced by an instance-loop mesh is a cached clone. -/
theorem deinstInsts_mats_cached (geometry material : Nat) (insts : List Inst)
    (mm : List (Nat × Nat)) (heap : List Material) :
    ∀ x ∈ ObjList.mats (deinstInsts geometry material insts mm heap).1,
      ∃ c, lookupColor (deinstInsts geometry material insts mm heap).2.1 c
        = some x := by
  rw [deinstInsts_mats_eq_top, deinstInsts_topMaterials]
  intro x hx
  obtain ⟨i, hi, hix⟩ := List.mem_map.mp hx
  obtain ⟨id, hid⟩ := Option.isSome_iff_exists.mp
    (deinstInsts_color_present geometry material insts mm heap i
      (List.mem_of_mem_filter hi))
  rw [hid] at hix
  exact ⟨i.color, by rw [hid, ← hix]; rfl⟩

mutual
/-- De-instancing shares geometries: every geometry reference in the output
tree already occurs in the input tree. -/
theorem deinstantiate_geoms_sub (o : Obj) (mm : List (Nat × Nat))
    (heap : List Material) :
    ∀ x ∈ Obj.geoms (deinstantiate o mm heap).1, x ∈ Obj.geoms o := by
  cases o with
  | node g m pos q sc children =>
    intro x hx
    rw [show (deinstantiate (Obj.node g m pos q sc children) mm heap).1 =
        Obj.node g m pos q sc (deinstantiateList children mm heap).1 from rfl,
      show Obj.geoms (Obj.node g m pos q sc (deinstantiateList children mm heap).1)
        = g.toList ++ ObjList.geoms (deinstantiateList children mm heap).1
        from rfl] at hx
    rw [show Obj.geoms (Obj.node g m pos q sc children)
      = g.toList ++ ObjList.geoms children from rfl]
    rcases List.mem_append.mp hx with h1 | h2
    · exact List.mem_append_left _ h1
    · exact List.mem_append_right _
        (deinstantiateList_geoms_sub children mm heap x h2)
  | instanced g m insts =>
    intro x hx
    rw [show (deinstantiate (Obj.instanced g m insts) mm heap).1 =
        Obj.node none none ⟨0, 0, 0⟩ identityQuat unitScale
          (deinstInsts g m insts mm heap).1 from rfl] at hx
    have hx2 : x ∈ ObjList.geoms (deinstInsts g m insts mm heap).1 := hx
    rw [deinstInsts_geoms g m insts mm heap x hx2]
    show g ∈ [g]
    exact List.mem_singleton.mpr rfl
/-- De-instancing a child list shares geometries with the input children. -/
theorem deinstantiateList_geoms_sub (l : ObjList) (mm : List (Nat × Nat))
    (heap : List Material) :
    ∀ x ∈ ObjList.geoms (deinstantiateList l mm heap).1,
      x ∈ ObjList.geoms l := by
  cases l with
  | nil => intro x hx; exact hx
  | cons a cs =>
    intro x hx
    rw [show (deinstantiateList (ObjList.cons a cs) mm heap).1 =
        ObjList.cons (deinstantiate a mm heap).1
          (deinstantiateList cs (deinstantiate a mm heap).2.1
            (deinstantiate a mm heap).2.2).1 from rfl] at hx
    rcases List.mem_append.mp hx with h1 | h2
    · exact List.mem_append_left _ (deinstantiate_geoms_sub a mm heap x h1)
    · exact List.mem_append_right _
        (deinstantiateList_geoms_sub cs (deinstantiate a mm heap).2.1
          (deinstantiate a mm heap).2.2 x h2)
end

mutual
/-- De-instancing shares materials: every material reference in the output
tree either occurs in the input tree or is a cached per-colour clone of this
call. -/
theorem deinstantiate_mats_sub (o : Obj) (mm : List (Nat × Nat))
    (heap : List Material) :
    ∀ x ∈ Obj.mats (deinstantiate o mm heap).1,
      x ∈ Obj.mats o
      ∨ ∃ c, lookupColor (deinstantiate o mm heap).2.1 c = some x := by
  cases o with
  | node g m pos q sc children =>
    intro x hx
    rw [show Obj.mats (deinstantiate (Obj.node g m pos q sc children) mm heap).1
        = m.toList ++ ObjList.mats (deinstantiateList children mm heap).1
        from rfl] at hx
    rcases List.mem_append.mp hx with h1 | h2
    · exact Or.inl (List.mem_append_left _ h1)
    · rcases deinstantiateList_mats_sub children mm heap x h2 with hin | hcl
      · exact Or.inl (List.mem_append_right _ hin)
      · exact Or.inr hcl
  | instanced g m insts =>
    intro x hx
    have hx2 : x ∈ ObjList.mats (deinstInsts g m insts mm heap).1 := hx
    exact Or.inr (deinstInsts_mats_cached g m insts mm heap x hx2)
/-- De-instancing a child list shares materials with the input children up to
cached per-colour clones. -/
theorem deinstantiateList_mats_sub (l : ObjList) (mm : List (Nat × Nat))
    (heap : List Material) :
    ∀ x ∈ ObjList.mats (deinstantiateList l mm heap).1,
      x ∈ ObjList.mats l
      ∨ ∃ c, lookupColor (deinstantiateList l mm heap).2.1 c = some x := by
  cases l with
  | nil => intro x hx; exact Or.inl hx
  | cons a cs =>
    intro x hx
    rw [show ObjList.mats (deinstantiateList (ObjList.cons a cs) mm heap).1 =
        Obj.mats (deinstantiate a mm heap).1
          ++ ObjList.mats (deinstantiateList cs (deinstantiate a mm heap).2.1
              (deinstantiate a mm heap).2.2).1 from rfl] at hx
    rcases List.mem_append.mp hx with h1 | h2
    · rcases deinstantiate_mats_sub a mm heap x h1 with hin | ⟨c, hc⟩
      · exact Or.inl (List.mem_append_left _ hin)
      · refine Or.inr ⟨c, ?_⟩
        exact deinstantiateList_lookup_mono cs (deinstantiate a mm heap).2.1
          (deinstantiate a mm heap).2.2 c x hc
    · rcases deinstantiateList_mats_sub cs (deinstantiate a mm heap).2.1
        (deinstantiate a mm heap).2.2 x h2 with hin | hcl
      · exact Or.inl (List.mem_append_right _ hin)
      · exact Or.inr hcl
end

/-- C5: `deinstantiate` performs no mutation of the input: scene nodes are
immutable values in this embedding, and the one shared mutable store — the
material heap — is only appended to, so every pre-existing node, geometry,
material and per-instance record is unchanged.  The returned clone shares
geometries by reference with the live scene, and shares materials by
reference except that mesh materials are the per-colour clones cached during
this call. -/
theorem deinstantiate_no_mutation_sharing (o : Obj) (heap : List Material) :
    (∃ ext, (deinstantiateTop o heap).2.2 = heap ++ ext)
    ∧ (∀ x ∈ Obj.geoms (deinstantiateTop o heap).1, x ∈ Obj.geoms o)
    ∧ (∀ x ∈ Obj.mats (deinstantiateTop o heap).1,
        x ∈ Obj.mats o
        ∨ ∃ c, lookupColor (deinstantiateTop o heap).2.1 c = some x) :=
  ⟨deinstantiate_heap_ext o [] heap,
   deinstantiate_geoms_sub o [] heap,
   deinstantiate_mats_sub o [] heap⟩

/-- C5 witness: in a scene whose root carries geometry 4 and holds one
instanced primitive with geometry 9, the de-instanced clone's geometry
reference 4 is shared with the live scene. -/
theorem deinstantiate_no_mutation_sharing_witness :
    (4 : Nat) ∈ Obj.geoms
      (Obj.node (some 4) (some 2) ⟨0, 0, 0⟩ identityQuat ⟨1, 1, 1⟩
        (ObjList.cons
          (Obj.instanced 9 2 [⟨⟨0, 0, 0⟩, identityQuat, ⟨1, 1, 1⟩, 5⟩])
          ObjList.nil)) :=
  (deinstantiate_no_mutation_sharing
      (Obj.node (some 4) (some 2) ⟨0, 0, 0⟩ identityQuat ⟨1, 1, 1⟩
        (ObjList.cons
          (Obj.instanced 9 2 [⟨⟨0, 0, 0⟩, identityQuat, ⟨1, 1, 1⟩, 5⟩])
          ObjList.nil))
      [⟨0, 0⟩, ⟨0, 0⟩, ⟨1, 2⟩]).2.1 4 (by decide)

/-! ## Molecular model: Api.addBond -/

/-- The part of an atom that `addBond` observes: the owning section
(`atom.section`, here an index into the document's section list) and the
atom's 1-based index within it. -/
structure BondAtom where
  sectionId : Nat
  sectionIdx : Nat
deriving DecidableEq, Repr

/-- A bond record as pushed by `addBond`. -/
structure Bond where
  atom1 : BondAtom
  atom2 : BondAtom
  order : Nat
  automatic : Bool
deriving DecidableEq, Repr

/-- `section.bonds.push(bond)` on the section at the given index; the other
sections' bond lists are untouched. -/
def pushBondAt : List (List Bond) → Nat → Bond → List (List Bond)
  | [], _, _ => []
  | s :: ss, 0, b => (s ++ [b]) :: ss
  | s :: ss, n + 1, b => s :: pushBondAt ss n b

/-- Embedding of `Api.addBond(atom1, atom2, order, automatic)`: the document
is the list of per-section bond lists.  Returns the updated document, the
JS return value (the function body has no return statement, so it is
`undefined`, i.e. `none`), and whether the cross-section error was
reported (`console.error`). -/
def addBond (sections : List (List Bond)) (atom1 atom2 : BondAtom)
    (order : Nat) (automatic : Bool) :
    List (List Bond) × Option Bond × Bool :=
  if atom1.sectionId ≠ atom2.sectionId then
    (sections, none, true)
  else
    (pushBondAt sections atom1.sectionId
      { atom1 := atom1, atom2 := atom2, order := order, automatic := automatic },
     none, false)

theorem pushBondAt_same (sections : List (List Bond)) (i : Nat) (b : Bond)
    (hi : i < sections.length) :
    (pushBondAt sections i b).getD i [] = sections.getD i [] ++ [b] := by
  induction sections generalizing i with
  | nil => simp at hi
  | cons s ss ih =>
    cases i with
    | zero => rfl
    | succ n =>
      rw [pushBondAt]
      show (pushBondAt ss n b).getD n [] = ss.getD n [] ++ [b]
      exact ih n (by simpa using hi)

theorem pushBondAt_other (sections : List (List Bond)) (i : Nat) (b : Bond)
    (j : Nat) (hj : j ≠ i) :
    (pushBondAt sections i b).getD j [] = sections.getD j [] := by
  induction sections generalizing i j with
  | nil => rfl
  | cons s ss ih =>
    cases i with
    | zero =>
      cases j with
      | zero => exact absurd rfl hj
      | succ m => rfl
    | succ n =>
      cases j with
      | zero => rfl
      | succ m =>
        rw [pushBondAt]
        show (pushBondAt ss n b).getD m [] = ss.getD m []
        exact ih n m (by simpa using hj)

/-- C6 counterexample: the claim says the same-section call "returns that
Bond", but `addBond` has no return statement: even when the bond is appended
the caller receives `undefined`. -/
theorem addBond_returns_undefined :
    (addBond [[]] ⟨0, 1⟩ ⟨0, 2⟩ 1 false).2.1
      ≠ some ⟨⟨0, 1⟩, ⟨0, 2⟩, 1, false⟩ := by
  decide

/-- C6 amended: if the two atoms belong to different sections the call is a
reported, non-fatal no-op — every section's bond list is unchanged and the
cross-section error is reported; otherwise it appends a bond with the given
fields to the shared owning section's bond list, leaves all other sections'
bond lists unchanged, reports no error, and returns no value (`undefined`,
not the new Bond). -/
theorem addBond_spec (sections : List (List Bond)) (a1 a2 : BondAtom)
    (order : Nat) (automatic : Bool) :
    (a1.sectionId ≠ a2.sectionId →
      (addBond sections a1 a2 order automatic).1 = sections
      ∧ (addBond sections a1 a2 order automatic).2.1 = none
      ∧ (addBond sections a1 a2 order automatic).2.2 = true)
    ∧ (a1.sectionId = a2.sectionId →
      (a1.sectionId < sections.length →
        (addBond sections a1 a2 order automatic).1.getD a1.sectionId []
          = sections.getD a1.sectionId []
            ++ [{ atom1 := a1, atom2 := a2, order := order, automatic := automatic }])
      ∧ (∀ j, j ≠ a1.sectionId →
          (addBond sections a1 a2 order automatic).1.getD j []
            = sections.getD j [])
      ∧ (addBond sections a1 a2 order automatic).2.1 = none
      ∧ (addBond sections a1 a2 order automatic).2.2 = false) := by
  constructor
  · intro hne
    rw [addBond, if_pos hne]
    exact ⟨rfl, rfl, rfl⟩
  · intro heq
    rw [addBond, if_neg (by simp [heq])]
    refine ⟨?_, ?_, rfl, rfl⟩
    · intro hi
      exact pushBondAt_same sections a1.sectionId _ hi
    · intro j hj
      exact pushBondAt_other sections a1.sectionId _ j hj

/-- C6 witness: a cross-section call on a two-section document reports the
error and changes nothing; a same-section call appends the bond to section 0
and leaves section 1 untouched. -/
theorem addBond_spec_witness :
    ((addBond [[], []] ⟨0, 1⟩ ⟨1, 1⟩ 1 false).1 = [[], []]
      ∧ (addBond [[], []] ⟨0, 1⟩ ⟨1, 1⟩ 1 false).2.1 = none
      ∧ (addBond [[], []] ⟨0, 1⟩ ⟨1, 1⟩ 1 false).2.2 = true)
    ∧ ((addBond [[], []] ⟨0, 1⟩ ⟨0, 2⟩ 2 true).1.getD 0 []
        = [] ++ [{ atom1 := ⟨0, 1⟩, atom2 := ⟨0, 2⟩, order := 2, automatic := true }]
      ∧ (addBond [[], []] ⟨0, 1⟩ ⟨0, 2⟩ 2 true).1.getD 1 [] = [])
    :=
  ⟨(addBond_spec [[], []] ⟨0, 1⟩ ⟨1, 1⟩ 1 false).1 (by decide),
   ⟨((addBond_spec [[], []] ⟨0, 1⟩ ⟨0, 2⟩ 2 true).2 rfl).1 (by decide),
    by
      rw [((addBond_spec [[], []] ⟨0, 1⟩ ⟨0, 2⟩ 2 true).2 rfl).2.1 1 (by decide)]
      rfl⟩⟩

/-! ## Molecular model: Api.transformAtoms -/

/-- `THREE.Vector3.add`. -/
def Vec3.add (a b : Vec3) : Vec3 := ⟨a.x + b.x, a.y + b.y, a.z + b.z⟩

/-- `THREE.Vector3.sub`. -/
def Vec3.sub (a b : Vec3) : Vec3 := ⟨a.x - b.x, a.y - b.y, a.z - b.z⟩

/-- `THREE.Vector3.divideScalar`. -/
def Vec3.divideScalar (v : Vec3) (s : Rat) : Vec3 := ⟨v.x / s, v.y / s, v.z / s⟩

/-- `THREE.Vector3.applyQuaternion` (the t = 2·cross(q, v) formulation used
by three.js). -/
def Vec3.applyQuaternion (v : Vec3) (q : Quat) : Vec3 :=
  let tx := 2 * (q.y * v.z - q.z * v.y)
  let ty := 2 * (q.z * v.x - q.x * v.z)
  let tz := 2 * (q.x * v.y - q.y * v.x)
  ⟨v.x + q.w * tx + q.y * tz - q.z * ty,
   v.y + q.w * ty + q.z * tx - q.x * tz,
   v.z + q.w * tz + q.x * ty - q.y * tx⟩

/-- An atom as `transformAtoms` sees it: its mutable position, plus a marker
for whether the atom is a member of the `atoms` argument (the given set);
the source loops only over the given atoms, everything else is untouched. -/
structure SAtom where
  selected : Bool
  position : Vec3
deriving DecidableEq, Repr

/-- Default atom used to totalise list indexing in statements. -/
def defaultSAtom : SAtom := ⟨false, ⟨0, 0, 0⟩⟩

/-- First loop of `transformAtoms`: `atom.position.add(translation)` for
every given atom. -/
def translateAtoms (t : Vec3) (doc : List SAtom) : List SAtom :=
  doc.map (fun a => if a.selected then { a with position := a.position.add t } else a)

/-- The `origin` accumulation loop: sum of the given atoms' positions. -/
def selSum : List SAtom → Vec3
  | [] => ⟨0, 0, 0⟩
  | a :: rest => if a.selected then (selSum rest).add a.position else selSum rest

/-- `atoms.length` of the given set. -/
def selCount : List SAtom → Nat
  | [] => 0
  | a :: rest => (if a.selected then 1 else 0) + selCount rest

/-- `origin.divideScalar(atoms.length)`: centroid of the given atoms. -/
def selCentroid (doc : List SAtom) : Vec3 :=
  (selSum doc).divideScalar (selCount doc)

/-- Second loop of `transformAtoms`:
`position.sub(origin); position.applyQuaternion(q); position.add(origin)`
for every given atom. -/
def rotateAtoms (q : Quat) (origin : Vec3) (doc : List SAtom) : List SAtom :=
  doc.map (fun a => if a.selected then
    { a with position := ((a.position.sub origin).applyQuaternion q).add origin }
    else a)

/-- Embedding of `Api.transformAtoms(atoms, translation, quaternion, origin)`:
translate the given atoms, then, if a quaternion is supplied, rotate them
about the supplied origin or, if none is supplied, about the centroid of the
given atoms' already-translated positions. -/
def transformAtoms (doc : List SAtom) (translation : Vec3)
    (quaternion : Option Quat) (origin : Option Vec3) : List SAtom :=
  let translated := translateAtoms translation doc
  match quaternion with
  | none => translated
  | some q =>
    let o := match origin with
      | some o => o
      | none => selCentroid translated
    rotateAtoms q o translated

theorem map_getD_of_lt (f : SAtom → SAtom) (l : List SAtom) (i : Nat)
    (hi : i < l.length) (d : SAtom) :
    (l.map f).getD i d = f (l.getD i d) := by
  rw [List.getD_eq_getElem?_getD, List.getElem?_map,
    List.getD_eq_getElem?_getD, List.getElem?_eq_getElem hi]
  simp


/-- C7: `transformAtoms` first adds the translation to every given atom's
position; then, if a rotation is supplied, every given atom is rotated about
the supplied origin when given, else about the centroid of the given atoms'
already-translated positions, by subtracting the origin, applying the
quaternion and re-adding the origin; atoms not in the given set are
untouched. -/
theorem transformAtoms_spec (doc : List SAtom) (t : Vec3)
    (qn : Option Quat) (org : Option Vec3) (i : Nat) :
    ((doc.getD i defaultSAtom).selected = false →
      (transformAtoms doc t qn org).getD i defaultSAtom
        = doc.getD i defaultSAtom)
    ∧ ((doc.getD i defaultSAtom).selected = true → i < doc.length →
      ((transformAtoms doc t none org).getD i defaultSAtom).position
        = (doc.getD i defaultSAtom).position.add t)
    ∧ (∀ qq o, (doc.getD i defaultSAtom).selected = true → i < doc.length →
      ((transformAtoms doc t (some qq) (some o)).getD i defaultSAtom).position
        = Vec3.add
            (Vec3.applyQuaternion
              (Vec3.sub ((doc.getD i defaultSAtom).position.add t) o) qq) o)
    ∧ (∀ qq, (doc.getD i defaultSAtom).selected = true → i < doc.length →
      ((transformAtoms doc t (some qq) none).getD i defaultSAtom).position
        = Vec3.add
            (Vec3.applyQuaternion
              (Vec3.sub ((doc.getD i defaultSAtom).position.add t)
                (selCentroid (translateAtoms t doc))) qq)
            (selCentroid (translateAtoms t doc))) := by
  refine ⟨?_, ?_, ?_, ?_⟩
  · intro hsel
    by_cases hi : i < doc.length
    · cases qn with
      | none =>
        show (translateAtoms t doc).getD i defaultSAtom = _
        rw [translateAtoms, map_getD_of_lt _ doc i hi]
        set b := doc.getD i defaultSAtom with hb
        simp [hsel]
      | some qq =>
        show (rotateAtoms qq _ (translateAtoms t doc)).getD i defaultSAtom = _
        rw [rotateAtoms, translateAtoms,
          map_getD_of_lt _ _ i (by rw [List.length_map]; exact hi),
          map_getD_of_lt _ doc i hi]
        set b := doc.getD i defaultSAtom with hb
        simp [hsel]
    · have hout : ∀ l : List SAtom, l.length = doc.length →
          l.getD i defaultSAtom = defaultSAtom := by
        intro l hl
        rw [List.getD_eq_getElem?_getD, List.getElem?_eq_none (by omega)]
        rfl
      have h1 : (transformAtoms doc t qn org).length = doc.length := by
        cases qn with
        | none => simp [transformAtoms, translateAtoms]
        | some qq => simp [transformAtoms, rotateAtoms, translateAtoms]
      rw [hout _ h1, hout doc rfl]
  · intro hsel hi
    show ((translateAtoms t doc).getD i defaultSAtom).position = _
    rw [translateAtoms, map_getD_of_lt _ doc i hi]
    set b := doc.getD i defaultSAtom with hb
    simp [hsel]
  · intro qq o hsel hi
    show ((rotateAtoms qq o (translateAtoms t doc)).getD i defaultSAtom).position = _
    rw [rotateAtoms, translateAtoms,
      map_getD_of_lt _ _ i (by rw [List.length_map]; exact hi),
      map_getD_of_lt _ doc i hi]
    set b := doc.getD i defaultSAtom with hb
    simp [hsel, Vec3.add, Vec3.sub, Vec3.applyQuaternion]
  · intro qq hsel hi
    show ((rotateAtoms qq (selCentroid (translateAtoms t doc))
        (translateAtoms t doc)).getD i defaultSAtom).position = _
    rw [rotateAtoms, translateAtoms,
      map_getD_of_lt _ _ i (by rw [List.length_map]; exact hi),
      map_getD_of_lt _ doc i hi]
    set b := doc.getD i defaultSAtom with hb
    simp [hsel, Vec3.add, Vec3.sub, Vec3.applyQuaternion]

/-- C7 witness: on a two-atom document with only the first atom given,
translation moves the first atom and leaves the second untouched, and a
rotation about an explicit origin composes subtract/rotate/re-add. -/
theorem transformAtoms_spec_witness :
    ((transformAtoms [⟨true, ⟨1, 0, 0⟩⟩, ⟨false, ⟨5, 5, 5⟩⟩] ⟨1, 2, 3⟩ none none).getD
        1 defaultSAtom = ⟨false, ⟨5, 5, 5⟩⟩)
    ∧ (((transformAtoms [⟨true, ⟨1, 0, 0⟩⟩, ⟨false, ⟨5, 5, 5⟩⟩] ⟨1, 2, 3⟩ none
          none).getD 0 defaultSAtom).position = Vec3.add ⟨1, 0, 0⟩ ⟨1, 2, 3⟩)
    ∧ (((transformAtoms [⟨true, ⟨1, 0, 0⟩⟩, ⟨false, ⟨5, 5, 5⟩⟩] ⟨1, 2, 3⟩
          (some ⟨0, 0, 0, 1⟩) (some ⟨0, 0, 0⟩)).getD 0 defaultSAtom).position
        = Vec3.add
            (Vec3.applyQuaternion
              (Vec3.sub (Vec3.add ⟨1, 0, 0⟩ ⟨1, 2, 3⟩) ⟨0, 0, 0⟩) ⟨0, 0, 0, 1⟩)
            ⟨0, 0, 0⟩) :=
  ⟨by
    have h := (transformAtoms_spec [⟨true, ⟨1, 0, 0⟩⟩, ⟨false, ⟨5, 5, 5⟩⟩]
      ⟨1, 2, 3⟩ none none 1).1 (by decide)
    rw [h]
    rfl,
   by
    have h := (transformAtoms_spec [⟨true, ⟨1, 0, 0⟩⟩, ⟨false, ⟨5, 5, 5⟩⟩]
      ⟨1, 2, 3⟩ none none 0).2.1 (by decide) (by decide)
    rw [h]
    rfl,
   by
    have h := (transformAtoms_spec [⟨true, ⟨1, 0, 0⟩⟩, ⟨false, ⟨5, 5, 5⟩⟩]
      ⟨1, 2, 3⟩ (some ⟨0, 0, 0, 1⟩) (some ⟨0, 0, 0⟩) 0).2.2.1 ⟨0, 0, 0, 1⟩
      ⟨0, 0, 0⟩ (by decide) (by decide)
    rw [h]
    rfl⟩

/-! ## Orbiting camera path (Api.exportOrbitingVideo) -/

/-- Real-valued 3-vector for the camera path (the path uses `Math.cos` /
`Math.sin`, so it is modelled over the reals rather than the rationals). -/
structure RVec3 where
  x : Real
  y : Real
  z : Real

/-- The `cameraPathFunction` closure built by `Api.exportOrbitingVideo`:
`position = (target.x + distance·cos(progress·nOrbits·2π), height,
target.z + distance·sin(progress·nOrbits·2π))`, returned together with the
constant orbit target. -/
noncomputable def cameraPathFunction (target : RVec3)
    (distance height nOrbits : Real) (progress : Real) : RVec3 × RVec3 :=
  (⟨target.x + distance * Real.cos (progress * nOrbits * 2 * Real.pi),
    height,
    target.z + distance * Real.sin (progress * nOrbits * 2 * Real.pi)⟩,
   target)

/-- C8: the orbiting camera path is periodic with the orbit count — for
`nOrbits = 1` the positions at progress 0 and 1 agree (closed loop), for
`nOrbits = 2` the positions at progress 1/2 and 0 agree — and for every
progress value the position lies on the circle of the given radius at the
given height around the target (squared horizontal distance `distance²`,
y-coordinate `height`). -/
theorem cameraPathFunction_periodic_circle (target : RVec3)
    (distance height : Real) :
    (cameraPathFunction target distance height 1 0
      = cameraPathFunction target distance height 1 1)
    ∧ (cameraPathFunction target distance height 2 (1 / 2)
      = cameraPathFunction target distance height 2 0)
    ∧ (∀ nOrbits progress : Real,
        ((cameraPathFunction target distance height nOrbits progress).1.x
            - target.x) ^ 2
          + ((cameraPathFunction target distance height nOrbits progress).1.z
            - target.z) ^ 2
          = distance ^ 2
        ∧ (cameraPathFunction target distance height nOrbits progress).1.y
            = height) := by
  refine ⟨?_, ?_, ?_⟩
  · have hc : Real.cos ((0 : Real) * 1 * 2 * Real.pi)
        = Real.cos ((1 : Real) * 1 * 2 * Real.pi) := by
      norm_num [Real.cos_two_pi]
    have hs : Real.sin ((0 : Real) * 1 * 2 * Real.pi)
        = Real.sin ((1 : Real) * 1 * 2 * Real.pi) := by
      norm_num [Real.sin_two_pi]
    simp only [cameraPathFunction, hc, hs]
  · have hc : Real.cos ((1 / 2 : Real) * 2 * 2 * Real.pi)
        = Real.cos ((0 : Real) * 2 * 2 * Real.pi) := by
      norm_num [Real.cos_two_pi]
    have hs : Real.sin ((1 / 2 : Real) * 2 * 2 * Real.pi)
        = Real.sin ((0 : Real) * 2 * 2 * Real.pi) := by
      norm_num [Real.sin_two_pi]
    simp only [cameraPathFunction, hc, hs]
  · intro nOrbits progress
    constructor
    · show (target.x + distance * Real.cos (progress * nOrbits * 2 * Real.pi)
          - target.x) ^ 2
        + (target.z + distance * Real.sin (progress * nOrbits * 2 * Real.pi)
          - target.z) ^ 2 = distance ^ 2
      have hpy := Real.sin_sq_add_cos_sq (progress * nOrbits * 2 * Real.pi)
      nlinarith [hpy]
    · rfl
